import Mathlib

/-!
Verification model of `clean_build_cache.py`.

The script operates on the host filesystem; we embed the relevant part of
that state as a tree of files and directories.  Each file carries the
observable attributes the script's behaviour depends on:

* `size`    — the value `stat().st_size` reports;
* `locked`  — `unlink()` on the file raises `PermissionError`
  (file in use / access denied);
* `statErr` — `stat()` on the file raises this error (`none` = stat
  succeeds).  `FileNotFoundError` models a file that vanished between
  directory listing and stat; `PermissionError` models a stat denied by
  directory permissions.  In Python both are subclasses of `OSError`.

Paths are POSIX-style strings, joined with `"/"` exactly as
`pathlib.Path.__truediv__` renders them.
-/

inductive StatErr where
  | fileNotFound
  | permissionDenied
deriving DecidableEq

structure FileAttr where
  size : Nat
  locked : Bool
  statErr : Option StatErr
deriving DecidableEq

mutual
inductive FSTree where
  | file (name : String) (attr : FileAttr)
  | dir (name : String) (children : FSList)
inductive FSList where
  | nil
  | cons (head : FSTree) (rest : FSList)
end

/-- Concatenation of directory listings (used to state theorems about a
directory whose children are split around a distinguished entry). -/
def FSList.append : FSList → FSList → FSList
  | .nil, ys => ys
  | .cons x xs, ys => .cons x (FSList.append xs ys)

/-- A file can actually be deleted by the script: its `stat` succeeds and
`unlink` succeeds. -/
def FileAttr.deletable (a : FileAttr) : Bool :=
  match a.statErr with
  | none => !a.locked
  | some _ => false

/-- The file is still physically present after a deletion attempt:
`unlink` failed (`locked`), or `stat` failed with `PermissionError`
(so the `unlink` line was never reached).  A file whose `stat` raised
`FileNotFoundError` is already gone and leaves nothing behind. -/
def FileAttr.leftBehind (a : FileAttr) : Bool :=
  a.locked ||
    (match a.statErr with
     | some .permissionDenied => true
     | _ => false)

/-- `pathlib.Path.exists()`: `False` for a missing path, and also `False`
when `stat` raises an `OSError` (e.g. `PermissionError`) — `exists()`
swallows those.  Directory stats always succeed in this model. -/
def pyExists : Option FSTree → Bool
  | none => false
  | some (.file _ a) => a.statErr.isNone
  | some (.dir _ _) => true

/-- One entry of a directory is not empty after the walk of
`delete_path_verbose` processed it (see `FileAttr.leftBehind`). -/
def hasLeftoverL : FSList → Bool
  | .nil => false
  | .cons (.file _ a) rest => a.leftBehind || hasLeftoverL rest
  | .cons (.dir _ cs) rest => hasLeftoverL cs || hasLeftoverL rest

/-- Total `st_size` of every regular file in a forest (what the spec calls
`s1 + ... + sn`). -/
def sizeSumL : FSList → Nat
  | .nil => 0
  | .cons (.file _ a) rest => a.size + sizeSumL rest
  | .cons (.dir _ cs) rest => sizeSumL cs + sizeSumL rest

/-- Total size of the files `delete_path_verbose` actually deletes. -/
def freedSizeL : FSList → Nat
  | .nil => 0
  | .cons (.file _ a) rest => (if a.deletable then a.size else 0) + freedSizeL rest
  | .cons (.dir _ cs) rest => freedSizeL cs + freedSizeL rest

/-- Every file in the forest is deletable (no locked entries, no stat
errors). -/
def allDeletableL : FSList → Bool
  | .nil => true
  | .cons (.file _ a) rest => a.deletable && allDeletableL rest
  | .cons (.dir _ cs) rest => allDeletableL cs && allDeletableL rest

/-!
`get_size` (source lines 82–95).  Its directory branch walks the tree with
`os.walk(path, topdown=True)` and guards each `stat` with
`except FileNotFoundError: pass` — **only** that error class is caught, a
`PermissionError` from `stat` propagates out of `get_size`.  We model the
possible outcomes with `Except StatErr`.
-/

/-- One `stat().st_size` guarded by `except FileNotFoundError: pass`
(the vanished file silently contributes 0). -/
def statSizeSkipFnf (a : FileAttr) : Except StatErr Nat :=
  match a.statErr with
  | none => .ok a.size
  | some .fileNotFound => .ok 0
  | some .permissionDenied => .error .permissionDenied

/-- The `for f in files` part of one `os.walk` entry: sizes of the
immediate regular files of a directory, in listing order. -/
def fileSizesHere : FSList → Except StatErr Nat
  | .nil => .ok 0
  | .cons (.file _ a) rest =>
      match statSizeSkipFnf a with
      | .error e => .error e
      | .ok s =>
          match fileSizesHere rest with
          | .error e => .error e
          | .ok t => .ok (s + t)
  | .cons (.dir _ _) rest => fileSizesHere rest

/-- The recursive part of the top-down walk: after the files of a
directory, `os.walk` descends into each subdirectory in listing order. -/
def subdirSizes : FSList → Except StatErr Nat
  | .nil => .ok 0
  | .cons (.file _ _) rest => subdirSizes rest
  | .cons (.dir _ cs) rest =>
      match fileSizesHere cs with
      | .error e => .error e
      | .ok a =>
          match subdirSizes cs with
          | .error e => .error e
          | .ok b =>
              match subdirSizes rest with
              | .error e => .error e
              | .ok c => .ok (a + b + c)

/-- `get_size` (spec: `size_of`): 0 for a missing path; `st_size` for a
regular file; the walk-sum for a directory.  A `PermissionError` raised by
a `stat` inside the walk is not caught and escapes as `.error`. -/
def get_size (t : Option FSTree) : Except StatErr Nat :=
  if pyExists t then
    match t with
    | some (.file _ a) =>
        -- `return path.stat().st_size` — no try/except here
        match a.statErr with
        | none => .ok a.size
        | some e => .error e
    | some (.dir _ cs) =>
        match fileSizesHere cs with
        | .error e => .error e
        | .ok a =>
            match subdirSizes cs with
            | .error e => .error e
            | .ok b => .ok (a + b)
    | none => .ok 0
  else .ok 0

/-!
`delete_path_verbose` (source lines 97–137).  Console prints become an
`Event` trace; each constructor corresponds to one `print` in the source.
-/

inductive Event where
  /-- `Removing file: {path} ({size formatted})` (lines 107 and 119) -/
  | removingFile (path : String) (size : Nat)
  /-- `[SKIPPED] In use or access denied: {path}` (lines 111, 123, 130) -/
  | skippedInUse (path : String)
  /-- `Removing folder: {path}` (line 128) -/
  | removingFolder (path : String)
  /-- `Removing root folder: {path}` (line 133) -/
  | removingRootFolder (path : String)
  /-- `[SKIPPED] Root folder in use or access denied: {path}` (line 135) -/
  | skippedRootFolder (path : String)
  /-- `[DONE] Finished: {path} ({size_before formatted}) removed` (line 161) -/
  | doneFinished (path : String) (sizeBefore : Nat)
  /-- `[{i}/{total_tasks}] Cleaning category: {label}` (line 154) -/
  | categoryHeader (idx tasks : Nat) (label : String)
  /-- the `progress_bar(i, total_tasks)` line (line 162) -/
  | progressLine (text : String)
  /-- `Cleanup Finished — Total Space Freed: {formatted}` (line 165) -/
  | totalLine (text : String)
deriving DecidableEq

def isSkippedInUse : Event → Bool
  | .skippedInUse _ => true
  | _ => false

def isSkippedRootFolder : Event → Bool
  | .skippedRootFolder _ => true
  | _ => false

/-- The `for name in files` loop of one bottom-up `os.walk` entry
(lines 115–123).  `stat` failure of any kind is caught by
`except (PermissionError, OSError)` and produces a skip notice; a locked
file passes `stat`, prints the `Removing file` line, and only then fails
`unlink`, so it produces both lines. -/
def yieldFiles (p : String) : FSList → Nat × List Event
  | .nil => (0, [])
  | .cons (.file n a) rest =>
      let fp := p ++ "/" ++ n
      let one : Nat × List Event :=
        match a.statErr with
        | some _ => (0, [Event.skippedInUse fp])
        | none =>
            if a.locked then
              (0, [Event.removingFile fp a.size, Event.skippedInUse fp])
            else
              (a.size, [Event.removingFile fp a.size])
      let further := yieldFiles p rest
      (one.1 + further.1, one.2 ++ further.2)
  | .cons (.dir _ _) rest => yieldFiles p rest

/-- The `for name in dirs` loop of one bottom-up `os.walk` entry
(lines 124–130).  By that point the subdirectory's own contents were
already processed, so `rmdir` succeeds exactly when nothing was left
behind inside it; otherwise `OSError` (directory not empty) is caught and
a skip notice printed. -/
def yieldDirs (p : String) : FSList → List Event
  | .nil => []
  | .cons (.file _ _) rest => yieldDirs p rest
  | .cons (.dir n cs) rest =>
      (if hasLeftoverL cs then [Event.skippedInUse (p ++ "/" ++ n)]
       else [Event.removingFolder (p ++ "/" ++ n)]) ++
      yieldDirs p rest

/-- All `os.walk(path, topdown=False)` entries strictly below the root:
for each subdirectory, its own subtree entries first (bottom-up), then its
files loop and dirs loop.  Returns bytes freed and the event trace in
exact walk order. -/
def walkDeleteL (p : String) : FSList → Nat × List Event
  | .nil => (0, [])
  | .cons (.file _ _) rest => walkDeleteL p rest
  | .cons (.dir n cs) rest =>
      let dp := p ++ "/" ++ n
      let inner := walkDeleteL dp cs
      let yf := yieldFiles dp cs
      let further := walkDeleteL p rest
      (inner.1 + yf.1 + further.1,
       inner.2 ++ yf.2 ++ yieldDirs dp cs ++ further.2)

/-- What is left of a forest after the walk plus the final
`shutil.rmtree(path, ignore_errors=True)`: only left-behind files survive
(locked, or stat denied — `rmtree` retries their deletion and fails the
same way), inside the directories that contain them. -/
def leftoverL : FSList → FSList
  | .nil => .nil
  | .cons (.file n a) rest =>
      if a.leftBehind then .cons (.file n a) (leftoverL rest) else leftoverL rest
  | .cons (.dir n cs) rest =>
      if hasLeftoverL cs then .cons (.dir n (leftoverL cs)) (leftoverL rest)
      else leftoverL rest

structure DeleteResult where
  freed : Nat
  events : List Event
  after : Option FSTree

/-- `delete_path_verbose`.  Missing path: 0, silently.  Regular file:
lines 104–111.  Directory: the bottom-up walk, then
`shutil.rmtree(path, ignore_errors=True)` — with `ignore_errors=True`
`rmtree` never raises, so the `print` on line 133 always runs and the
`except` branch of line 134 is dead code; the root directory disappears
exactly when no file was left behind.  `after` is the state of the tree
at this path once the call returns. -/
def delete_path_verbose (t : Option FSTree) (p : String) : DeleteResult :=
  if pyExists t then
    match t with
    | some (.file n a) =>
        match a.statErr with
        | some _ => ⟨0, [Event.skippedInUse p], some (.file n a)⟩
        | none =>
            if a.locked then
              ⟨0, [Event.removingFile p a.size, Event.skippedInUse p],
               some (.file n a)⟩
            else
              ⟨a.size, [Event.removingFile p a.size], none⟩
    | some (.dir n cs) =>
        let w := walkDeleteL p cs
        let yf := yieldFiles p cs
        ⟨w.1 + yf.1,
         w.2 ++ yf.2 ++ yieldDirs p cs ++ [Event.removingRootFolder p],
         if hasLeftoverL cs then some (.dir n (leftoverL cs)) else none⟩
    | none => ⟨0, [], none⟩
  else ⟨0, [], t⟩

/-- Bytes `delete_path_verbose` frees, computed directly from the tree. -/
def optFreedSize : Option FSTree → Nat
  | none => 0
  | some (.file _ a) => if a.deletable then a.size else 0
  | some (.dir _ cs) => freedSizeL cs

/-!
`sizeof_fmt` (source lines 74-80) and `progress_bar` (lines 139-143).

`sizeof_fmt` repeatedly divides by `1024.0`; division by a power of two
is exact in IEEE double precision for the magnitudes involved, so exact
rational arithmetic models it faithfully.  `progress_bar` uses general
float division, where rounding matters: a Python float is an IEEE double
and every arithmetic result is rounded to 53 significant bits, to
nearest, ties to even; `roundD` below is that rounding.

`Frac` is an exact rational (no normalisation), kept with a positive
denominator throughout: numbers enter as integers and the only divisors
are positive.  `int()` on a nonnegative float truncates, i.e. floors.
-/

structure Frac where
  num : ℤ
  den : ℤ
deriving DecidableEq

def Frac.ofNat (n : ℕ) : Frac := ⟨n, 1⟩

def Frac.mulNat (q : Frac) (m : ℕ) : Frac := ⟨q.num * m, q.den⟩

def Frac.divNat (q : Frac) (m : ℕ) : Frac := ⟨q.num, q.den * m⟩

/-- Exact division of two fractions (used only with a positive second
argument, keeping denominators positive). -/
def Frac.div (x y : Frac) : Frac := ⟨x.num * y.den, x.den * y.num⟩

/-- `⌊q⌋` (denominator positive). -/
def Frac.floor (q : Frac) : ℤ := Int.fdiv q.num q.den

/-- Round to the nearest integer, ties to even (the IEEE / Python
rounding mode); denominator positive. -/
def rndHalfEvenZ (q : Frac) : ℤ :=
  let f : ℤ := q.floor
  let r2 : ℤ := 2 * (q.num - f * q.den)
  if r2 < q.den then f
  else if q.den < r2 then f + 1
  else if f % 2 = 0 then f else f + 1

/-- Digits of a nonnegative number of tenths, as `d.d`. -/
def fmtTenthsNat (m : Nat) : String :=
  toString (m / 10) ++ "." ++ toString (m % 10)

/-- Python `f"{q:.1f}"`: one decimal digit, round half to even. -/
def fmtDec1 (q : Frac) : String :=
  let n : ℤ := rndHalfEvenZ (q.mulNat 10)
  if n < 0 then "-" ++ fmtTenthsNat (-n).toNat else fmtTenthsNat n.toNat

/-- Pad on the left with spaces to width 3 (the `3` in `f"{q:3.1f}"`). -/
def pad3 (s : String) : String :=
  if s.length < 3 then String.mk (List.replicate (3 - s.length) ' ') ++ s else s

/-- The `for unit in ["", "K", "M", "G", "T"]` loop of `sizeof_fmt`:
stop at the first unit where `abs(num) < 1024.0`, else divide by 1024;
after the loop render with unit `P` (no width padding there). -/
def sizeofFmtGo (suffix : String) : List String → Frac → String
  | [], num => fmtDec1 num ++ "P" ++ suffix
  | unit :: rest, num =>
      if |num.num| < 1024 * num.den then pad3 (fmtDec1 num) ++ unit ++ suffix
      else sizeofFmtGo suffix rest (num.divNat 1024)

/-- `sizeof_fmt(num, suffix)`; every call in the script uses the default
`suffix="B"`. -/
def sizeof_fmt (num : Frac) (suffix : String) : String :=
  sizeofFmtGo suffix ["", "K", "M", "G", "T"] num

/-- Fuel-driven ⌊log₂ n⌋ for `n ≥ 1` (fuel `n` is always enough since the
argument at least halves each step). -/
def log2fuel : Nat → Nat → Nat
  | 0, _ => 0
  | fuel + 1, n => if 2 ≤ n then log2fuel fuel (n / 2) + 1 else 0

/-- Fuel-driven ⌈log₂ n⌉ for `n ≥ 1`. -/
def clog2fuel : Nat → Nat → Nat
  | 0, _ => 0
  | fuel + 1, n => if 2 ≤ n then clog2fuel fuel ((n + 1) / 2) + 1 else 0

/-- ⌊log₂ q⌋ for a positive fraction: `⌊log₂ ⌊q⌋⌋` when `q ≥ 1`, and
`-⌈log₂ ⌈q⁻¹⌉⌉` when `0 < q < 1`. -/
def ilog2q (q : Frac) : ℤ :=
  if q.den ≤ q.num then
    (log2fuel q.floor.toNat q.floor.toNat : ℤ)
  else
    let c : ℤ := -(Int.fdiv (-q.den) q.num);
    -(clog2fuel c.toNat c.toNat : ℤ)

/-- Round an exact rational to the nearest IEEE double (53-bit
significand, round to nearest, ties to even; normal range only — the
modelled inputs never reach overflow or subnormals). -/
def roundD (q : Frac) : Frac :=
  if q.num = 0 then ⟨0, 1⟩
  else
    let e : ℤ := ilog2q ⟨|q.num|, q.den⟩
    let k : ℤ := 52 - e
    if 0 ≤ k then
      let s : ℤ := 2 ^ k.toNat
      ⟨rndHalfEvenZ ⟨q.num * s, q.den⟩, s⟩
    else
      let s : ℤ := 2 ^ (-k).toNat
      ⟨rndHalfEvenZ ⟨q.num, q.den * s⟩ * s, 1⟩

/-- `progress_bar(current, total)`: `int(width * current / total)` filled
cells out of 30 and the label `int((current / total) * 100)` with `%`,
every intermediate value rounded to double precision exactly as Python
computes it (ints convert exactly at these magnitudes). -/
def progress_bar (current total : Nat) : String :=
  let width : Nat := 30
  let filled : Nat :=
    (roundD ((roundD (Frac.ofNat (width * current))).div (roundD (Frac.ofNat total)))).floor.toNat
  let bar : String :=
    String.mk (List.replicate filled '#') ++ String.mk (List.replicate (width - filled) '-')
  let pct : Nat :=
    (roundD ((roundD ((roundD (Frac.ofNat current)).div (roundD (Frac.ofNat total)))).mulNat 100)).floor.toNat
  "[" ++ bar ++ "] " ++ toString pct ++ "%"

/-- The progress indicator exactly as the claim words it: the filled cell
count is `⌊30 * current / total⌋` and the percentage is
`⌊current / total * 100⌋`, both in exact integer arithmetic.  Stated for
comparison with `progress_bar`. -/
def progressBarSpec (current total : Nat) : String :=
  let width : Nat := 30
  let filled : Nat := width * current / total
  let bar : String :=
    String.mk (List.replicate filled '#') ++ String.mk (List.replicate (width - filled) '-')
  "[" ++ bar ++ "] " ++ toString (current * 100 / total) ++ "%"

/-!
`CACHE_LOCATIONS` (source lines 8–69) and `clean_all_verbose`
(lines 148–166).  `Path.home()` and `Path.cwd()` become the parameters
`home` and `cwd`; `os.path.expanduser` becomes the parameter `xu` (on a
POSIX host it returns the Windows-style `~\...` arguments unchanged,
i.e. `xu = id`); `os.getenv` becomes `env`.  `Path("")` normalises to
`"."` — the current working directory — at construction time, and a
`Path` object is always truthy, so the walker's guard `if p and
p.exists()` is just the `exists` test.
-/

/-- `pathlib.Path(s)` as a string: the empty string normalises to `"."`,
everything else is kept. -/
def pyPath (s : String) : String := if s = "" then "." else s

/-- `os.getenv(k) or ""`: the empty string when the variable is unset
(or set to the falsy empty string). -/
def getenvOr (env : String → Option String) (k : String) : String :=
  (env k).getD ""

def CACHE_LOCATIONS (home cwd : String) (xu : String → String)
    (env : String → Option String) : List (String × List String) :=
  [ ("Android / Gradle",
      [ home ++ "/.gradle/caches",
        home ++ "/.gradle/daemon",
        cwd ++ "/build",
        cwd ++ "/app/build",
        cwd ++ "/.gradle",
        cwd ++ "/.idea/caches",
        cwd ++ "/.idea/libraries",
        home ++ "/.android/build-cache",
        pyPath (xu "~\\AppData\\Local\\Gradle\\caches"),
        pyPath (xu "~\\AppData\\Local\\Gradle\\daemon") ]),
    ("Node.js",
      [ home ++ "/.npm",
        pyPath (xu "~\\AppData\\Roaming\\npm-cache"),
        home ++ "/.cache/yarn",
        pyPath (xu "~\\AppData\\Local\\Yarn\\Cache"),
        home ++ "/.pnpm-store",
        pyPath (xu "~\\AppData\\Local\\pnpm-store"),
        cwd ++ "/node_modules",
        cwd ++ "/dist",
        cwd ++ "/build",
        cwd ++ "/.next",
        cwd ++ "/.nuxt",
        cwd ++ "/.svelte-kit",
        cwd ++ "/.angular" ]),
    ("Maven / Kotlin",
      [ home ++ "/.m2/repository",
        pyPath (xu "~\\.m2\\repository"),
        cwd ++ "/target",
        cwd ++ "/build",
        cwd ++ "/.gradle" ]),
    ("Python",
      [ home ++ "/.cache/pip",
        pyPath (xu "~\\AppData\\Local\\pip\\cache"),
        cwd ++ "/venv",
        cwd ++ "/.venv",
        cwd ++ "/build",
        cwd ++ "/dist" ]),
    ("Rust (Cargo)",
      [ home ++ "/.cargo/registry",
        home ++ "/.cargo/git",
        pyPath (xu "~\\.cargo\\registry"),
        pyPath (xu "~\\.cargo\\git"),
        cwd ++ "/target" ]),
    ("Go",
      [ home ++ "/go/pkg/mod",
        pyPath (xu "~\\go\\pkg\\mod"),
        cwd ++ "/bin" ]),
    ("System Temp",
      [ "/tmp",
        "/var/tmp",
        pyPath (getenvOr env "TEMP"),
        pyPath (getenvOr env "TMP") ]) ]

/-- The world as `clean_all_verbose` sees it: the filesystem keyed by
path string, the running byte total, and the console trace so far. -/
structure RunState where
  fs : String → Option FSTree
  total : Nat
  events : List Event

/-- The body of the inner `for p in paths` loop (lines 155–161): skip a
missing path; measure it (`get_size` may raise — uncaught here); if the
size is positive, delete it, add the bytes freed, and print the `[DONE]`
line with the size measured before deletion. -/
def processPath (st : RunState) (p : String) : Except StatErr RunState :=
  if pyExists (st.fs p) then
    match get_size (st.fs p) with
    | .error e => .error e
    | .ok sizeBefore =>
        if 0 < sizeBefore then
          let d := delete_path_verbose (st.fs p) p
          .ok ⟨fun q => if q = p then d.after else st.fs q,
               st.total + d.freed,
               st.events ++ d.events ++ [Event.doneFinished p sizeBefore]⟩
        else .ok st
  else .ok st

def processPathList : RunState → List String → Except StatErr RunState
  | st, [] => .ok st
  | st, p :: ps =>
      match processPath st p with
      | .error e => .error e
      | .ok st2 => processPathList st2 ps

/-- The outer `for i, (label, paths) in enumerate(..., start=1)` loop
(lines 153–162): category header, the paths of the category, then the
progress line. -/
def processCategories (tasks : Nat) :
    Nat → RunState → List (String × List String) → Except StatErr RunState
  | _, st, [] => .ok st
  | i, st, (label, paths) :: rest =>
      match processPathList ⟨st.fs, st.total,
              st.events ++ [Event.categoryHeader i tasks label]⟩ paths with
      | .error e => .error e
      | .ok st2 =>
          processCategories tasks (i + 1)
            ⟨st2.fs, st2.total,
             st2.events ++ [Event.progressLine (progress_bar i tasks)]⟩ rest

/-- `clean_all_verbose()` over a given world; ends with the final total
line.  An uncaught error from `get_size` aborts the whole run. -/
def clean_all_verbose (home cwd : String) (xu : String → String)
    (env : String → Option String) (fs : String → Option FSTree) :
    Except StatErr RunState :=
  let locs := CACHE_LOCATIONS home cwd xu env
  match processCategories locs.length 1 ⟨fs, 0, []⟩ locs with
  | .error e => .error e
  | .ok st =>
      .ok ⟨st.fs, st.total,
           st.events ++ [Event.totalLine (sizeof_fmt (Frac.ofNat st.total) "B")]⟩

/-- Observe the final byte total of a run (`none` when the run aborted). -/
def runTotal : Except StatErr RunState → Option Nat
  | .error _ => none
  | .ok st => some st.total

/-- Observe the final filesystem entry at a path (`none` when the run
aborted). -/
def runFsAt (p : String) : Except StatErr RunState → Option (Option FSTree)
  | .error _ => none
  | .ok st => some (st.fs p)

/-!
Supporting lemmas.
-/

theorem walkDeleteL_append (p : String) (xs ys : FSList) :
    walkDeleteL p (FSList.append xs ys) =
      ((walkDeleteL p xs).1 + (walkDeleteL p ys).1,
       (walkDeleteL p xs).2 ++ (walkDeleteL p ys).2) := by
  match xs with
  | .nil => simp [FSList.append, walkDeleteL]
  | .cons (.file n a) rest =>
      have ih := walkDeleteL_append p rest ys
      simp [FSList.append, walkDeleteL, ih]
  | .cons (.dir n cs) rest =>
      have ih := walkDeleteL_append p rest ys
      simp [FSList.append, walkDeleteL, ih]
      omega

theorem yieldFiles_append (p : String) (xs ys : FSList) :
    yieldFiles p (FSList.append xs ys) =
      ((yieldFiles p xs).1 + (yieldFiles p ys).1,
       (yieldFiles p xs).2 ++ (yieldFiles p ys).2) := by
  match xs with
  | .nil => simp [FSList.append, yieldFiles]
  | .cons (.file n a) rest =>
      have ih := yieldFiles_append p rest ys
      simp [FSList.append, yieldFiles, ih]
      omega
  | .cons (.dir n cs) rest =>
      have ih := yieldFiles_append p rest ys
      simp [FSList.append, yieldFiles, ih]

theorem yieldDirs_append (p : String) (xs ys : FSList) :
    yieldDirs p (FSList.append xs ys) = yieldDirs p xs ++ yieldDirs p ys := by
  match xs with
  | .nil => simp [FSList.append, yieldDirs]
  | .cons (.file n a) rest =>
      have ih := yieldDirs_append p rest ys
      simp [FSList.append, yieldDirs, ih]
  | .cons (.dir n cs) rest =>
      have ih := yieldDirs_append p rest ys
      simp [FSList.append, yieldDirs, ih]

/-- The bytes freed by the walk together with the root's own files loop
are exactly the sizes of the deletable files of the forest. -/
theorem walk_yf_freed (p : String) (cs : FSList) :
    (walkDeleteL p cs).1 + (yieldFiles p cs).1 = freedSizeL cs := by
  match cs with
  | .nil => rfl
  | .cons (.file n a) rest =>
      have ih := walk_yf_freed p rest
      rcases a with ⟨sz, lk, se⟩
      cases se <;> cases lk <;>
        simp [walkDeleteL, yieldFiles, freedSizeL, FileAttr.deletable] <;>
        omega
  | .cons (.dir n cs2) rest =>
      have ih1 := walk_yf_freed (p ++ "/" ++ n) cs2
      have ih2 := walk_yf_freed p rest
      simp [walkDeleteL, yieldFiles, freedSizeL]
      omega

theorem allDeletable_no_leftover (cs : FSList) (h : allDeletableL cs = true) :
    hasLeftoverL cs = false := by
  match cs with
  | .nil => rfl
  | .cons (.file n a) rest =>
      rcases a with ⟨sz, lk, se⟩
      simp [allDeletableL, FileAttr.deletable] at h
      have ih := allDeletable_no_leftover rest h.2
      cases se with
      | none =>
          simp [hasLeftoverL, FileAttr.leftBehind, ih]
          simpa using h.1
      | some e => simp [FileAttr.deletable] at h
  | .cons (.dir n cs2) rest =>
      simp [allDeletableL] at h
      have ih1 := allDeletable_no_leftover cs2 h.1
      have ih2 := allDeletable_no_leftover rest h.2
      simp [hasLeftoverL, ih1, ih2]

theorem allDeletable_freed_eq_sizeSum (cs : FSList) (h : allDeletableL cs = true) :
    freedSizeL cs = sizeSumL cs := by
  match cs with
  | .nil => rfl
  | .cons (.file n a) rest =>
      simp [allDeletableL] at h
      have ih := allDeletable_freed_eq_sizeSum rest h.2
      simp [freedSizeL, sizeSumL, h.1, ih]
  | .cons (.dir n cs2) rest =>
      simp [allDeletableL] at h
      have ih1 := allDeletable_freed_eq_sizeSum cs2 h.1
      have ih2 := allDeletable_freed_eq_sizeSum rest h.2
      simp [freedSizeL, sizeSumL, ih1, ih2]

theorem allDeletable_leftoverL_nil (cs : FSList) (h : allDeletableL cs = true) :
    leftoverL cs = .nil := by
  match cs with
  | .nil => rfl
  | .cons (.file n a) rest =>
      rcases a with ⟨sz, lk, se⟩
      simp [allDeletableL, FileAttr.deletable] at h
      have ih := allDeletable_leftoverL_nil rest h.2
      cases se with
      | none =>
          have hlk : lk = false := by simpa using h.1
          simp [leftoverL, FileAttr.leftBehind, hlk, ih]
      | some e => simp [FileAttr.deletable] at h
  | .cons (.dir n cs2) rest =>
      simp [allDeletableL] at h
      have ih2 := allDeletable_leftoverL_nil rest h.2
      simp [leftoverL, allDeletable_no_leftover cs2 h.1, ih2]

theorem yieldFiles_no_skip (p : String) (cs : FSList)
    (h : allDeletableL cs = true) :
    (yieldFiles p cs).2.countP isSkippedInUse = 0 := by
  match cs with
  | .nil => rfl
  | .cons (.file n a) rest =>
      rcases a with ⟨sz, lk, se⟩
      simp [allDeletableL, FileAttr.deletable] at h
      have ih := yieldFiles_no_skip p rest h.2
      cases se with
      | none =>
          have hlk : lk = false := by simpa using h.1
          simp [yieldFiles, hlk, List.countP_append, ih, List.countP_cons,
            isSkippedInUse]
      | some e => simp [FileAttr.deletable] at h
  | .cons (.dir n cs2) rest =>
      simp [allDeletableL] at h
      have ih := yieldFiles_no_skip p rest h.2
      simpa [yieldFiles] using ih

theorem yieldDirs_no_skip (p : String) (cs : FSList)
    (h : allDeletableL cs = true) :
    (yieldDirs p cs).countP isSkippedInUse = 0 := by
  match cs with
  | .nil => rfl
  | .cons (.file n a) rest =>
      simp [allDeletableL] at h
      have ih := yieldDirs_no_skip p rest h.2
      simpa [yieldDirs] using ih
  | .cons (.dir n cs2) rest =>
      simp [allDeletableL] at h
      have ih := yieldDirs_no_skip p rest h.2
      simp [yieldDirs, allDeletable_no_leftover cs2 h.1, List.countP_cons,
        isSkippedInUse, ih]

theorem walkDeleteL_no_skip (p : String) (cs : FSList)
    (h : allDeletableL cs = true) :
    (walkDeleteL p cs).2.countP isSkippedInUse = 0 := by
  match cs with
  | .nil => rfl
  | .cons (.file n a) rest =>
      simp [allDeletableL] at h
      have ih := walkDeleteL_no_skip p rest h.2
      simpa [walkDeleteL] using ih
  | .cons (.dir n cs2) rest =>
      simp [allDeletableL] at h
      have ih1 := walkDeleteL_no_skip (p ++ "/" ++ n) cs2 h.1
      have ih2 := walkDeleteL_no_skip p rest h.2
      simp [walkDeleteL, List.countP_append, ih1, ih2,
        yieldFiles_no_skip (p ++ "/" ++ n) cs2 h.1,
        yieldDirs_no_skip (p ++ "/" ++ n) cs2 h.1]

theorem yieldFiles_no_rootskip (p : String) (cs : FSList) :
    (yieldFiles p cs).2.countP isSkippedRootFolder = 0 := by
  match cs with
  | .nil => rfl
  | .cons (.file n a) rest =>
      rcases a with ⟨sz, lk, se⟩
      have ih := yieldFiles_no_rootskip p rest
      cases se <;> cases lk <;>
        simp [yieldFiles, List.countP_append, List.countP_cons,
          isSkippedRootFolder, ih]
  | .cons (.dir n cs2) rest =>
      have ih := yieldFiles_no_rootskip p rest
      simpa [yieldFiles] using ih

theorem yieldDirs_no_rootskip (p : String) (cs : FSList) :
    (yieldDirs p cs).countP isSkippedRootFolder = 0 := by
  match cs with
  | .nil => rfl
  | .cons (.file n a) rest =>
      have ih := yieldDirs_no_rootskip p rest
      simpa [yieldDirs] using ih
  | .cons (.dir n cs2) rest =>
      have ih := yieldDirs_no_rootskip p rest
      cases hh : hasLeftoverL cs2 <;>
        simp [yieldDirs, hh, List.countP_cons, isSkippedRootFolder, ih]

theorem walkDeleteL_no_rootskip (p : String) (cs : FSList) :
    (walkDeleteL p cs).2.countP isSkippedRootFolder = 0 := by
  match cs with
  | .nil => rfl
  | .cons (.file n a) rest =>
      have ih := walkDeleteL_no_rootskip p rest
      simpa [walkDeleteL] using ih
  | .cons (.dir n cs2) rest =>
      have ih1 := walkDeleteL_no_rootskip (p ++ "/" ++ n) cs2
      have ih2 := walkDeleteL_no_rootskip p rest
      simp [walkDeleteL, List.countP_append, ih1, ih2,
        yieldFiles_no_rootskip (p ++ "/" ++ n) cs2,
        yieldDirs_no_rootskip (p ++ "/" ++ n) cs2]

/-- One step of the walker never decreases the running total. -/
theorem processPath_mono (st : RunState) (p : String) (st2 : RunState)
    (h : processPath st p = .ok st2) : st.total ≤ st2.total := by
  unfold processPath at h
  by_cases he : pyExists (st.fs p) = true
  · simp [he] at h
    rcases hg : get_size (st.fs p) with e | n
    · simp [hg] at h
    · simp [hg] at h
      by_cases hn : 0 < n
      · simp [hn] at h
        rw [← h]
        exact Nat.le_add_right _ _
      · simp [hn] at h
        rw [← h]
  · simp [he] at h
    rw [← h]

theorem processPathList_mono (st : RunState) (l : List String) (st2 : RunState)
    (h : processPathList st l = .ok st2) : st.total ≤ st2.total := by
  match l with
  | [] =>
      simp [processPathList] at h
      rw [← h]
  | p :: ps =>
      unfold processPathList at h
      rcases hp : processPath st p with e | stm
      · simp [hp] at h
      · simp [hp] at h
        exact le_trans (processPath_mono st p stm hp) (processPathList_mono stm ps st2 h)

theorem freedSizeL_append (xs ys : FSList) :
    freedSizeL (FSList.append xs ys) = freedSizeL xs + freedSizeL ys := by
  match xs with
  | .nil => simp [FSList.append, freedSizeL]
  | .cons (.file n a) rest =>
      have ih := freedSizeL_append rest ys
      simp [FSList.append, freedSizeL, ih]
      omega
  | .cons (.dir n cs) rest =>
      have ih := freedSizeL_append rest ys
      simp [FSList.append, freedSizeL, ih]
      omega

theorem hasLeftoverL_append (xs ys : FSList) :
    hasLeftoverL (FSList.append xs ys) = (hasLeftoverL xs || hasLeftoverL ys) := by
  match xs with
  | .nil => simp [FSList.append, hasLeftoverL]
  | .cons (.file n a) rest =>
      have ih := hasLeftoverL_append rest ys
      simp [FSList.append, hasLeftoverL, ih, Bool.or_assoc]
  | .cons (.dir n cs) rest =>
      have ih := hasLeftoverL_append rest ys
      simp [FSList.append, hasLeftoverL, ih, Bool.or_assoc]

theorem leftoverL_append (xs ys : FSList) :
    leftoverL (FSList.append xs ys) = FSList.append (leftoverL xs) (leftoverL ys) := by
  match xs with
  | .nil => simp [FSList.append, leftoverL]
  | .cons (.file n a) rest =>
      have ih := leftoverL_append rest ys
      cases hb : a.leftBehind <;> simp [FSList.append, leftoverL, hb, ih]
  | .cons (.dir n cs) rest =>
      have ih := leftoverL_append rest ys
      cases hb : hasLeftoverL cs <;> simp [FSList.append, leftoverL, hb, ih]

/-!
The claims.
-/

/-- C1: for a directory whose N regular files (at any depth) all have
known sizes and none is undeletable, `delete_path_verbose` returns the
sum of the file sizes, and the directory is absent from the filesystem
afterwards. -/
theorem c1_erase_clean_directory (nm ps : String) (cs : FSList)
    (h : allDeletableL cs = true) :
    (delete_path_verbose (some (.dir nm cs)) ps).freed = sizeSumL cs ∧
    (delete_path_verbose (some (.dir nm cs)) ps).after = none := by
  have hf := walk_yf_freed ps cs
  have he := allDeletable_freed_eq_sizeSum cs h
  have hl := allDeletable_no_leftover cs h
  constructor
  · simp [delete_path_verbose, pyExists]
    rw [hf, he]
  · simp [delete_path_verbose, pyExists, hl]

/-- C1 witness: a directory holding files of sizes 3 and 4 (one of them
inside a subdirectory) frees 7 bytes and disappears. -/
theorem c1_erase_clean_directory_witness :
    (delete_path_verbose (some (.dir "proj"
        (.cons (.file "a" ⟨3, false, none⟩)
          (.cons (.dir "sub" (.cons (.file "b" ⟨4, false, none⟩) .nil)) .nil))))
      "/w/build").freed = 7 ∧
    (delete_path_verbose (some (.dir "proj"
        (.cons (.file "a" ⟨3, false, none⟩)
          (.cons (.dir "sub" (.cons (.file "b" ⟨4, false, none⟩) .nil)) .nil))))
      "/w/build").after = none :=
  c1_erase_clean_directory "proj" "/w/build"
    (.cons (.file "a" ⟨3, false, none⟩)
      (.cons (.dir "sub" (.cons (.file "b" ⟨4, false, none⟩) .nil)) .nil)) rfl

/-- C5: a path that does not exist on disk yields `size_of = 0` and
`erase = 0`; absence is not an error (no `.error`, no events). -/
theorem c5_missing_path_is_zero (ps : String) :
    get_size none = .ok 0 ∧ delete_path_verbose none ps = ⟨0, [], none⟩ :=
  ⟨rfl, rfl⟩

/-- C6: on an existing regular file (its `stat` succeeds), the call either
deletes it and returns its stat-reported size, or — when `unlink` fails —
emits a SKIPPED observation, returns 0 and leaves the file in place.  The
call is a total function: no exception escapes. -/
theorem c6_erase_regular_file (n ps : String) (a : FileAttr)
    (h : a.statErr = none) :
    (a.locked = false →
      delete_path_verbose (some (.file n a)) ps =
        ⟨a.size, [Event.removingFile ps a.size], none⟩) ∧
    (a.locked = true →
      (delete_path_verbose (some (.file n a)) ps).freed = 0 ∧
      (delete_path_verbose (some (.file n a)) ps).events =
        [Event.removingFile ps a.size, Event.skippedInUse ps] ∧
      (delete_path_verbose (some (.file n a)) ps).after = some (.file n a)) := by
  rcases a with ⟨sz, lk, se⟩
  cases h
  constructor <;> intro hlk <;> cases hlk <;>
    simp [delete_path_verbose, pyExists]

/-- C6 witness: a 7-byte unlocked file is deleted and reported. -/
theorem c6_erase_regular_file_witness :
    delete_path_verbose (some (.file "f" ⟨7, false, none⟩)) "/t/f" =
      ⟨7, [Event.removingFile "/t/f" 7], none⟩ :=
  (c6_erase_regular_file "f" "/t/f" ⟨7, false, none⟩ rfl).1 rfl

/-- C10: for every existing directory the final
`shutil.rmtree(path, ignore_errors=True)` step cannot raise, so the
`Removing root folder` line is emitted on every directory call, the
`[SKIPPED] Root folder` notice never occurs, and the line appears even
when the root directory is in fact not removed (left-behind files). -/
theorem c10_root_removal_always_reported (nm ps : String) (cs : FSList) :
    Event.removingRootFolder ps ∈ (delete_path_verbose (some (.dir nm cs)) ps).events ∧
    (delete_path_verbose (some (.dir nm cs)) ps).events.countP isSkippedRootFolder = 0 ∧
    (hasLeftoverL cs = true →
      (delete_path_verbose (some (.dir nm cs)) ps).after = some (.dir nm (leftoverL cs))) := by
  refine ⟨?_, ?_, ?_⟩
  · simp [delete_path_verbose, pyExists]
  · simp [delete_path_verbose, pyExists, List.countP_append,
      walkDeleteL_no_rootskip, yieldFiles_no_rootskip, yieldDirs_no_rootskip,
      List.countP_cons, isSkippedRootFolder]
  · intro hh
    simp [delete_path_verbose, pyExists, hh]

/-- C10 witness: with a locked 9-byte file inside, the root line is still
emitted, no root-skip notice appears, and the directory survives. -/
theorem c10_root_removal_always_reported_witness :
    Event.removingRootFolder "/c" ∈
      (delete_path_verbose (some (.dir "d" (.cons (.file "x" ⟨9, true, none⟩) .nil))) "/c").events ∧
    (delete_path_verbose (some (.dir "d" (.cons (.file "x" ⟨9, true, none⟩) .nil))) "/c").events.countP
      isSkippedRootFolder = 0 ∧
    (delete_path_verbose (some (.dir "d" (.cons (.file "x" ⟨9, true, none⟩) .nil))) "/c").after
      = some (.dir "d" (.cons (.file "x" ⟨9, true, none⟩) .nil)) :=
  ⟨(c10_root_removal_always_reported "d" "/c" _).1,
   (c10_root_removal_always_reported "d" "/c" _).2.1,
   (c10_root_removal_always_reported "d" "/c" _).2.2 rfl⟩

/-- C2: when exactly one file directly inside the directory is locked
(its `unlink` raises) and everything else is deletable,
`delete_path_verbose` returns the sum of the other files' sizes, emits
exactly one skip notice — for the locked file — and the directory itself
survives, still holding that file; siblings before and after the locked
file are all processed. -/
theorem c2_one_locked_file (nm ps fn : String) (fsz : Nat) (l r : FSList)
    (hl : allDeletableL l = true) (hr : allDeletableL r = true) :
    (delete_path_verbose
        (some (.dir nm (FSList.append l (.cons (.file fn ⟨fsz, true, none⟩) r)))) ps).freed
      = sizeSumL l + sizeSumL r ∧
    (delete_path_verbose
        (some (.dir nm (FSList.append l (.cons (.file fn ⟨fsz, true, none⟩) r)))) ps).events.countP
      isSkippedInUse = 1 ∧
    Event.skippedInUse (ps ++ "/" ++ fn) ∈
      (delete_path_verbose
        (some (.dir nm (FSList.append l (.cons (.file fn ⟨fsz, true, none⟩) r)))) ps).events ∧
    (delete_path_verbose
        (some (.dir nm (FSList.append l (.cons (.file fn ⟨fsz, true, none⟩) r)))) ps).after
      = some (.dir nm (.cons (.file fn ⟨fsz, true, none⟩) .nil)) := by
  have hwalk := walkDeleteL_append ps l (.cons (.file fn ⟨fsz, true, none⟩) r)
  have hyf := yieldFiles_append ps l (.cons (.file fn ⟨fsz, true, none⟩) r)
  have hyd := yieldDirs_append ps l (.cons (.file fn ⟨fsz, true, none⟩) r)
  have hleft : hasLeftoverL (FSList.append l (.cons (.file fn ⟨fsz, true, none⟩) r)) = true := by
    simp [hasLeftoverL_append, hasLeftoverL, FileAttr.leftBehind]
  refine ⟨?_, ?_, ?_, ?_⟩
  · have hf := walk_yf_freed ps (FSList.append l (.cons (.file fn ⟨fsz, true, none⟩) r))
    have hfe : freedSizeL (FSList.append l (.cons (.file fn ⟨fsz, true, none⟩) r))
        = sizeSumL l + sizeSumL r := by
      rw [freedSizeL_append]
      simp [freedSizeL, FileAttr.deletable,
        allDeletable_freed_eq_sizeSum l hl, allDeletable_freed_eq_sizeSum r hr]
    simp only [delete_path_verbose, pyExists]
    rw [if_pos trivial]
    rw [hf, hfe]
  · simp only [delete_path_verbose, pyExists]
    rw [if_pos trivial]
    simp only [List.countP_append, hwalk, hyf, hyd]
    simp [List.countP_append, walkDeleteL_no_skip ps l hl,
      walkDeleteL_no_skip ps r hr, yieldFiles_no_skip ps l hl,
      yieldFiles_no_skip ps r hr, yieldDirs_no_skip ps l hl,
      yieldDirs_no_skip ps r hr, walkDeleteL, yieldFiles, yieldDirs,
      List.countP_cons, isSkippedInUse]
  · simp only [delete_path_verbose, pyExists]
    rw [if_pos trivial]
    simp only [hwalk, hyf, hyd]
    simp [yieldFiles, List.mem_append]
  · simp only [delete_path_verbose, pyExists]
    rw [if_pos trivial]
    rw [if_pos hleft]
    rw [leftoverL_append, allDeletable_leftoverL_nil l hl]
    simp [FSList.append, leftoverL, FileAttr.leftBehind,
      allDeletable_leftoverL_nil r hr]

/-- C2 witness: files of sizes 3 and 4 around a locked 9-byte file —
7 bytes freed, one skip notice naming the locked file, and the directory
survives holding only that file. -/
theorem c2_one_locked_file_witness :
    (delete_path_verbose
        (some (.dir "d" (FSList.append (.cons (.file "a" ⟨3, false, none⟩) .nil)
          (.cons (.file "x" ⟨9, true, none⟩)
            (.cons (.file "b" ⟨4, false, none⟩) .nil))))) "/c").freed = 7 ∧
    (delete_path_verbose
        (some (.dir "d" (FSList.append (.cons (.file "a" ⟨3, false, none⟩) .nil)
          (.cons (.file "x" ⟨9, true, none⟩)
            (.cons (.file "b" ⟨4, false, none⟩) .nil))))) "/c").events.countP
      isSkippedInUse = 1 ∧
    Event.skippedInUse "/c/x" ∈
      (delete_path_verbose
        (some (.dir "d" (FSList.append (.cons (.file "a" ⟨3, false, none⟩) .nil)
          (.cons (.file "x" ⟨9, true, none⟩)
            (.cons (.file "b" ⟨4, false, none⟩) .nil))))) "/c").events ∧
    (delete_path_verbose
        (some (.dir "d" (FSList.append (.cons (.file "a" ⟨3, false, none⟩) .nil)
          (.cons (.file "x" ⟨9, true, none⟩)
            (.cons (.file "b" ⟨4, false, none⟩) .nil))))) "/c").after
      = some (.dir "d" (.cons (.file "x" ⟨9, true, none⟩) .nil)) :=
  c2_one_locked_file "d" "/c" "x" 9
    (.cons (.file "a" ⟨3, false, none⟩) .nil)
    (.cons (.file "b" ⟨4, false, none⟩) .nil) rfl rfl

/-- C3 counterexample: a `PermissionError` raised by `stat` during the
directory walk is **not** caught by `except FileNotFoundError`, so
`get_size` does not return normally — refuting the claim that every
filesystem error in size computation is turned into a skip. -/
theorem c3_counterexample :
    get_size (some (.dir "cache"
        (.cons (.file "locked" ⟨5, false, some .permissionDenied⟩) .nil)))
      = .error .permissionDenied ∧
    ∀ k : Nat,
      get_size (some (.dir "cache"
        (.cons (.file "locked" ⟨5, false, some .permissionDenied⟩) .nil)))
        ≠ .ok k := by
  constructor
  · rfl
  · intro k h
    have hc : Except.error (ε := StatErr) (α := Nat) .permissionDenied = .ok k := h
    simp at hc

/-- C3 amended: in `delete_path_verbose` every per-file error is caught,
and in `get_size` a vanished file (`FileNotFoundError`) is skipped
silently, contributing 0 — but a `PermissionError` from `stat` inside the
walk propagates out of `get_size` (aborting the caller), because the
source catches only `FileNotFoundError` there. -/
theorem c3_only_fnf_skipped_in_get_size (dn fn : String) (sz : Nat) (rest : FSList) :
    get_size (some (.dir dn (.cons (.file fn ⟨sz, false, some .fileNotFound⟩) rest)))
      = get_size (some (.dir dn rest)) ∧
    get_size (some (.dir dn (.cons (.file fn ⟨sz, false, some .permissionDenied⟩) rest)))
      = .error .permissionDenied := by
  constructor
  · simp only [get_size, pyExists, fileSizesHere, subdirSizes, statSizeSkipFnf]
    rcases hf : fileSizesHere rest with e | a
    · simp [hf]
    · rcases hs : subdirSizes rest with e | b <;> simp [hf, hs]
  · rfl

/-- C9: bytes freed are counted once per deleted file — the value
`delete_path_verbose` returns is exactly the total size of the deletable
files of the argument, a natural number — and the running total of
`clean_all_verbose`'s path walk never decreases as paths are processed. -/
theorem c9_running_total_monotone :
    (∀ (t : Option FSTree) (ps : String),
        (delete_path_verbose t ps).freed = optFreedSize t) ∧
    (∀ (st : RunState) (l : List String) (st2 : RunState),
        processPathList st l = .ok st2 → st.total ≤ st2.total) := by
  constructor
  · intro t ps
    match t with
    | none => rfl
    | some (.file n a) =>
        rcases a with ⟨sz, lk, se⟩
        cases se <;> cases lk <;>
          simp [delete_path_verbose, pyExists, optFreedSize, FileAttr.deletable]
    | some (.dir n cs) =>
        have hf := walk_yf_freed ps cs
        simp only [delete_path_verbose, pyExists, optFreedSize]
        rw [if_pos trivial]
        exact hf
  · intro st l st2 h
    exact processPathList_mono st l st2 h

/-- C9 witness: a one-path walk over an empty filesystem keeps the
running total (7) unchanged, hence non-decreasing. -/
theorem c9_running_total_monotone_witness :
    (⟨fun _ => none, 7, []⟩ : RunState).total ≤
      (⟨fun _ => none, 7, []⟩ : RunState).total :=
  c9_running_total_monotone.2 ⟨fun _ => none, 7, []⟩ ["/w/build"]
    ⟨fun _ => none, 7, []⟩ rfl

/-- C4: with neither `TEMP` nor `TMP` set, the last two "System Temp"
catalogue entries are `Path("")`, which is `"."` — the current working
directory; the walker's guard does not filter it out (a `Path` is always
truthy and `"."` exists), so a full `clean_all_verbose` run measures and
erases the contents of the current working directory: in a world where
`"."` holds one 5-byte file and every other catalogue path is absent, the
run reports 5 bytes freed and leaves `"."` deleted. -/
theorem c4_unset_temp_erases_cwd (env : String → Option String)
    (h1 : env "TEMP" = none) (h2 : env "TMP" = none) :
    (CACHE_LOCATIONS "/h" "/w" id env).getLast?.map Prod.snd
      = some ["/tmp", "/var/tmp", ".", "."] ∧
    runTotal (clean_all_verbose "/h" "/w" id (fun _ => none)
        (fun q => if q = "." then
            some (.dir "tmpdir" (.cons (.file "junk" ⟨5, false, none⟩) .nil))
          else none)) = some 5 ∧
    runFsAt "." (clean_all_verbose "/h" "/w" id (fun _ => none)
        (fun q => if q = "." then
            some (.dir "tmpdir" (.cons (.file "junk" ⟨5, false, none⟩) .nil))
          else none)) = some none := by
  refine ⟨?_, rfl, rfl⟩
  simp [CACHE_LOCATIONS, pyPath, getenvOr, h1, h2]

/-- C4 witness: the theorem applied to the empty environment. -/
theorem c4_unset_temp_erases_cwd_witness :
    (CACHE_LOCATIONS "/h" "/w" id (fun _ => none)).getLast?.map Prod.snd
      = some ["/tmp", "/var/tmp", ".", "."] ∧
    runTotal (clean_all_verbose "/h" "/w" id (fun _ => none)
        (fun q => if q = "." then
            some (.dir "tmpdir" (.cons (.file "junk" ⟨5, false, none⟩) .nil))
          else none)) = some 5 ∧
    runFsAt "." (clean_all_verbose "/h" "/w" id (fun _ => none)
        (fun q => if q = "." then
            some (.dir "tmpdir" (.cons (.file "junk" ⟨5, false, none⟩) .nil))
          else none)) = some none :=
  c4_unset_temp_erases_cwd (fun _ => none) rfl rfl

/-- C7 counterexample: the byte formatter always appends its default
suffix `"B"` after the unit letter, so `format(1024)` is `"1.0KB"`, not
the claimed `"1.0K"`. -/
theorem c7_counterexample :
    sizeof_fmt (Frac.ofNat 1024) "B" = "1.0KB" ∧ "1.0KB" ≠ "1.0K" := by
  constructor
  · rfl
  · decide

/-- C7 amended: binary (1024-based) scaling through B, K, M, G, T with
one decimal place and the default suffix `"B"` appended: `format(0) =
"0.0B"`, `format(1024) = "1.0KB"`, `format(1536) = "1.5KB"`,
`format(1024^4) = "1.0TB"`, and everything at or beyond `1024^5` is
rendered with unit `P`: `format(1024^5) = "1.0PB"`, `format(1024^6) =
"1024.0PB"`. -/
theorem c7_binary_byte_formatting :
    sizeof_fmt (Frac.ofNat 0) "B" = "0.0B" ∧
    sizeof_fmt (Frac.ofNat 1024) "B" = "1.0KB" ∧
    sizeof_fmt (Frac.ofNat 1536) "B" = "1.5KB" ∧
    sizeof_fmt (Frac.ofNat (1024 ^ 4)) "B" = "1.0TB" ∧
    sizeof_fmt (Frac.ofNat (1024 ^ 5)) "B" = "1.0PB" ∧
    sizeof_fmt (Frac.ofNat (1024 ^ 6)) "B" = "1024.0PB" :=
  ⟨rfl, rfl, rfl, rfl, rfl, rfl⟩

/-- C8 counterexample: the percentage is computed as
`int((current/total)*100)` in double-precision floats; at
`(current, total) = (29, 100)` the product `0.29 * 100` is
`28.999999999999996`, so the label reads `28%` while the claimed exact
`⌊current/total*100⌋` is `29%`. -/
theorem c8_counterexample :
    progress_bar 29 100 = "[########----------------------] 28%" ∧
    progressBarSpec 29 100 = "[########----------------------] 29%" ∧
    progress_bar 29 100 ≠ progressBarSpec 29 100 := by
  refine ⟨rfl, rfl, ?_⟩
  intro h
  have : "[########----------------------] 28%"
      = "[########----------------------] 29%" :=
    (rfl : progress_bar 29 100 = _).symm.trans (h.trans rfl)
  simp at this

/-- C8 amended: the bar is 30 characters wide with
`int(width*current/total)` filled cells and the percentage label
`int((current/total)*100)`, both through Python float division — which
matches the exact truncated arithmetic at `(1, 4)` (7 filled cells,
label `25%`) but can fall one below the exact percentage, e.g. `28%` at
`(29, 100)`. -/
theorem c8_progress_bar_rendering :
    progress_bar 1 4 = "[#######-----------------------] 25%" ∧
    progress_bar 1 4 = progressBarSpec 1 4 ∧
    progress_bar 29 100 = "[########----------------------] 28%" :=
  ⟨rfl, rfl, rfl⟩
